import Mathlib

/-!
# Verification of the torrentinfo bencode decoder and dumper

A shallow embedding of `src/torrentinfo.py` (the module installed by
`setup.py`): the `StringBuffer` cursor, the recursive-descent bencode
decoder (`Torrent.parse` together with the `String`, `Integer`,
`Dictionary` and `List` class constructors), the printability test
`String.is_printable`, the size formatter `Integer.dump_as_size`, the
`dump` renderers, and the per-file loop of `main`.

Python 2 byte strings are modelled as Lean `String`s whose characters
carry the byte values (all inputs of interest use code points below
256, where Lean's character ordering coincides with byte ordering).
The decoder's recursion is bounded by an explicit fuel parameter: the
Python original can loop forever on adversarial inputs (a dictionary
key with a negative declared length can move the cursor backwards), so
the recursion has no structural measure.  Running out of fuel is the
distinguished error `PErr.fuel`, which no theorem below identifies
with a behaviour of the program.
-/

/-- Errors of the embedded program.  `bufferOverrun` and
`characterExpected` are the `StringBuffer` exceptions, `unknownTypeChar`
and `unexpectedType` are the `Torrent` exceptions, `valueError` models
Python's `ValueError` raised by a failing `int(...)` conversion, and
`fuel` marks exhaustion of the recursion bound of the embedding. -/
inductive PErr where
  | bufferOverrun (n : Int)
  | characterExpected (c : Char)
  | unknownTypeChar (c : Char)
  | valueError
  | unexpectedType
  | fuel
deriving DecidableEq, Repr

/-- The `StringBuffer` class: a string plus a cursor position.  The
position is an `Int` because Python's `get` can be called with a
negative length (via a negative declared string length in the input),
which moves `self.index` backwards and can make it negative. -/
structure StringBuffer where
  string : String
  index : Int
deriving DecidableEq, Repr

/-- `StringBuffer.is_eof`: `self.index >= len(self.string)`. -/
def StringBuffer.is_eof (sb : StringBuffer) : Bool :=
  (sb.string.length : Int) ≤ sb.index

/-- Python character indexing `s[i]`: a negative index counts from the
end of the string.  (For `i < -len(s)` Python raises `IndexError`; that
state is unreachable from the operations modelled here, and the model
returns an arbitrary character.) -/
def pyCharAt (s : String) (i : Int) : Char :=
  let j : Int := if i < 0 then (s.length : Int) + i else i
  s.data.getD j.toNat (Char.ofNat 0)

/-- Python slicing `s[i:j]`: negative bounds count from the end, and
both bounds are clamped to `[0, len(s)]`. -/
def pySlice (s : String) (i j : Int) : String :=
  let n := s.length
  let i' := min n (if i < 0 then ((n : Int) + i).toNat else i.toNat)
  let j' := min n (if j < 0 then ((n : Int) + j).toNat else j.toNat)
  String.mk ((s.data.drop i').take (j' - i'))

/-- `StringBuffer.peek`: returns the next character without advancing;
raises `BufferOverrun(1)` at end of input. -/
def StringBuffer.peek (sb : StringBuffer) : Except PErr Char :=
  if sb.is_eof then .error (.bufferOverrun 1)
  else .ok (pyCharAt sb.string sb.index)

/-- `StringBuffer.get`: `last = self.index + length`; raises
`BufferOverrun(last - len(self.string))` if `last` exceeds the length
(leaving the cursor untouched), otherwise returns the slice
`self.string[self.index : last]` and sets `self.index = last`.
The result pairs the outcome with the state after the call. -/
def StringBuffer.get (sb : StringBuffer) (length : Int) :
    (Except PErr String) × StringBuffer :=
  let last := sb.index + length
  if (sb.string.length : Int) < last then
    (.error (.bufferOverrun (last - sb.string.length)), sb)
  else
    (.ok (pySlice sb.string sb.index last), { sb with index := last })

/-- The loop of `StringBuffer.get_upto`, with an explicit iteration
bound.  Each iteration consumes one character via `get(1)`, so the
bound `len - index` supplied by `StringBuffer.get_upto` is exact: the
bound reaches `0` precisely when the loop would observe `is_eof` and
raise `CharacterExpected`. -/
def StringBuffer.getUptoAux (c : Char) :
    Nat → StringBuffer → String → (Except PErr String) × StringBuffer
  | 0, sb, _ => (.error (.characterExpected c), sb)
  | n + 1, sb, acc =>
    if sb.is_eof then (.error (.characterExpected c), sb)
    else
      match sb.get 1 with
      | (.ok ch, sb') =>
        if ch = String.singleton c then (.ok acc, sb')
        else StringBuffer.getUptoAux c n sb' (acc ++ ch)
      | (.error e, sb') => (.error e, sb')

/-- `StringBuffer.get_upto`: collects characters until the delimiter
(exclusive), consuming the delimiter; raises `CharacterExpected` if the
buffer is exhausted first. -/
def StringBuffer.get_upto (sb : StringBuffer) (c : Char) :
    (Except PErr String) × StringBuffer :=
  StringBuffer.getUptoAux c ((sb.string.length : Int) - sb.index).toNat sb ""

/-- The invariant stated by the specification for the cursor:
`0 <= position <= len(buffer)`. -/
def SBInv (sb : StringBuffer) : Prop :=
  0 ≤ sb.index ∧ sb.index ≤ (sb.string.length : Int)

instance (sb : StringBuffer) : Decidable (SBInv sb) := by
  unfold SBInv; infer_instance

/-- Membership in Python's `string.printable` constant: the 95
printable ASCII characters `0x20`–`0x7E` together with the whitespace
characters tab, newline, vertical tab, form feed and carriage return. -/
def pyPrintable (c : Char) : Bool :=
  (32 ≤ c.toNat && c.toNat ≤ 126) || (9 ≤ c.toNat && c.toNat ≤ 13)

/-- The control characters of `String.is_printable`:
`range(0, 32) + range(127, 160)`. -/
def ctrlChar (c : Char) : Bool :=
  c.toNat < 32 || (127 ≤ c.toNat && c.toNat < 160)

/-- `String.is_printable`: `isascii` is true when every character lies
in `string.printable`; `isunicode` is true when
`re.compile('[<control chars>]').match(value)` returns `None`, i.e.
when the string is empty or its first character is not a control
character (`re.match` anchors at the start of the string).  The
`asciionly` flag selects between the two. -/
def String.is_printable (asciionly : Bool) (value : String) : Bool :=
  let isascii := value.data.all pyPrintable
  let isunicode :=
    match value.data with
    | [] => true
    | c :: _ => !(ctrlChar c)
  if asciionly then isascii else isunicode

/-- Whitespace stripped by Python's `int(str)` conversion. -/
def pyIsSpace (c : Char) : Bool :=
  c.toNat == 32 || (9 ≤ c.toNat && c.toNat ≤ 13)

/-- Numeric value of a list of decimal digits. -/
def digitsVal (ds : List Char) : Nat :=
  ds.foldl (fun a c => a * 10 + (c.toNat - 48)) 0

/-- Python's `int(s)` on a byte string: optional surrounding
whitespace, an optional sign, then one or more decimal digits;
anything else raises `ValueError`. -/
def pyInt (s : String) : Except PErr Int :=
  let t := ((s.data.dropWhile pyIsSpace).reverse.dropWhile pyIsSpace).reverse
  match t with
  | [] => .error .valueError
  | '-' :: ds =>
    if !ds.isEmpty && ds.all Char.isDigit then .ok (-(digitsVal ds : Int))
    else .error .valueError
  | '+' :: ds =>
    if !ds.isEmpty && ds.all Char.isDigit then .ok (digitsVal ds : Int)
    else .error .valueError
  | ds =>
    if ds.all Char.isDigit then .ok (digitsVal ds : Int)
    else .error .valueError

/-- A decoded `String` object: the declared length (as parsed, an
integer), the raw value, and the printability flag computed at
construction time. -/
structure BStr where
  length : Int
  value : String
  isprintable : Bool
deriving DecidableEq, Repr

/-- The decoded value tree: `Integer`, `String`, `List` and
`Dictionary` objects.  A dictionary is the association list of its
entries; see `dictInsert` for the update semantics of
`self.value[key] = ...`. -/
inductive Value where
  | int (n : Int)
  | str (s : BStr)
  | list (l : List Value)
  | dict (d : List (BStr × Value))

/-- `self.value[key] = v` on the dictionary: Python dict assignment
with `String` keys hashed and compared by their `value` field.  An
existing binding keeps its original key object and position and has
its value replaced; a new key is adjoined.  (Python 2's hash order of
distinct keys is not observable: every consumer either sorts the keys
or searches the whole dictionary.) -/
def dictInsert (d : List (BStr × Value)) (k : BStr) (v : Value) :
    List (BStr × Value) :=
  match d with
  | [] => [(k, v)]
  | (k', v') :: rest =>
    if k'.value = k.value then (k', v) :: rest
    else (k', v') :: dictInsert rest k v

/-- `Dictionary.__getitem__`: scans the entries for a key object whose
`value` equals the requested string; `none` models `KeyError`. -/
def dictLookup : List (BStr × Value) → String → Option Value
  | [], _ => none
  | (k, v) :: rest, key =>
    if k.value = key then some v else dictLookup rest key

/-- `String(string)` construction: read the declared length up to the
colon, convert it with `int`, consume that many characters, and record
the printability of the result. -/
def parseBStr (asciionly : Bool) (sb : StringBuffer) :
    Except PErr (BStr × StringBuffer) :=
  match sb.get_upto ':' with
  | (.error e, _) => .error e
  | (.ok lenStr, sb₁) =>
    match pyInt lenStr with
    | .error e => .error e
    | .ok len =>
      match sb₁.get len with
      | (.error e, _) => .error e
      | (.ok value, sb₂) =>
        .ok ({ length := len, value := value,
               isprintable := String.is_printable asciionly value }, sb₂)

/-- `Integer(string)` construction: consume the `i` prefix, read up to
the `e` delimiter, and convert with `int`. -/
def parseInteger (sb : StringBuffer) : Except PErr (Value × StringBuffer) :=
  match sb.get 1 with
  | (.error e, _) => .error e
  | (.ok _, sb₁) =>
    match sb₁.get_upto 'e' with
    | (.error e, _) => .error e
    | (.ok digits, sb₂) => (pyInt digits).map (fun n => (.int n, sb₂))

mutual

/-- `Torrent.parse`: peek at the next character and dispatch through
`TYPE_MAP` (`d` → `Dictionary`, `l` → `List`, `[0-9]` → `String`,
`i` → `Integer`); any other character raises `UnknownTypeChar`.
The first argument of each function in this block is the recursion
fuel of the embedding. -/
def Torrent.parse (asciionly : Bool) :
    Nat → StringBuffer → Except PErr (Value × StringBuffer)
  | 0, _ => .error .fuel
  | fuel + 1, sb =>
    match sb.peek with
    | .error e => .error e
    | .ok c =>
      if c = 'd' then
        match sb.get 1 with
        | (.error e, _) => .error e
        | (.ok _, sb₁) => dictLoop asciionly fuel [] sb₁
      else if c = 'l' then
        match sb.get 1 with
        | (.error e, _) => .error e
        | (.ok _, sb₁) => listLoop asciionly fuel [] sb₁
      else if '0' ≤ c ∧ c ≤ '9' then
        (parseBStr asciionly sb).map (fun p => (.str p.1, p.2))
      else if c = 'i' then
        parseInteger sb
      else .error (.unknownTypeChar c)

/-- The entry-reading loop of `Dictionary.__init__`: while the next
character is not `e`, parse a key directly via the `String`
production, parse a value via `Torrent.parse`, and store it with
`self.value[key] = value`; finally consume the closing `e`. -/
def dictLoop (asciionly : Bool) :
    Nat → List (BStr × Value) → StringBuffer →
    Except PErr (Value × StringBuffer)
  | 0, _, _ => .error .fuel
  | fuel + 1, d, sb =>
    match sb.peek with
    | .error e => .error e
    | .ok c =>
      if c = 'e' then
        match sb.get 1 with
        | (.error e, _) => .error e
        | (.ok _, sb₁) => .ok (.dict d, sb₁)
      else
        match parseBStr asciionly sb with
        | .error e => .error e
        | .ok (k, sb₁) =>
          match Torrent.parse asciionly fuel sb₁ with
          | .error e => .error e
          | .ok (v, sb₂) => dictLoop asciionly fuel (dictInsert d k v) sb₂

/-- The element-reading loop of `List.__init__`: while the next
character is not `e`, parse an element and append it; finally consume
the closing `e`. -/
def listLoop (asciionly : Bool) :
    Nat → List Value → StringBuffer → Except PErr (Value × StringBuffer)
  | 0, _, _ => .error .fuel
  | fuel + 1, l, sb =>
    match sb.peek with
    | .error e => .error e
    | .ok c =>
      if c = 'e' then
        match sb.get 1 with
        | (.error e, _) => .error e
        | (.ok _, sb₁) => .ok (.list l, sb₁)
      else
        match Torrent.parse asciionly fuel sb with
        | .error e => .error e
        | .ok (v, sb₁) => listLoop asciionly fuel (l ++ [v]) sb₁

end

/-- `Torrent.__init__` on an already-loaded buffer: parse the content
and raise `UnexpectedType` when the root value is not a `Dictionary`
(the filename field plays no role in the decoded value). -/
def Torrent.init (asciionly : Bool) (fuel : Nat) (s : String) :
    Except PErr Value :=
  match Torrent.parse asciionly fuel ⟨s, 0⟩ with
  | .error e => .error e
  | .ok (v, _) =>
    match v with
    | .dict _ => .ok v
    | _ => .error .unexpectedType

/-- String repetition `tabchar * depth`. -/
def pyRepeat (s : String) : Nat → String
  | 0 => ""
  | n + 1 => s ++ pyRepeat s n

/-- Byte-lexicographic comparison, the order Python 2's `cmp` induces
on byte strings and hence the order of `String.__cmp__` (which
compares the `value` fields): a proper prefix precedes its extensions,
otherwise the first differing byte decides. -/
def lexLe : List Char → List Char → Bool
  | [], _ => true
  | _ :: _, [] => false
  | a :: as, b :: bs =>
    if a.toNat < b.toNat then true
    else if b.toNat < a.toNat then false
    else lexLe as bs

/-- The sorting relation of `keys.sort()` in `Dictionary.dump`, lifted
to key/rendered-value pairs: compare the key objects by
`String.__cmp__`, i.e. byte-lexicographically on their `value`
fields. -/
def keyLe (p q : BStr × String) : Prop :=
  lexLe p.1.value.data q.1.value.data = true

instance : DecidableRel keyLe := fun p q => by unfold keyLe; infer_instance

/-- Byte-lexicographic order on the emitted key names themselves. -/
def nameLe (s t : String) : Prop := lexLe s.data t.data = true

instance : DecidableRel nameLe := fun s t => by unfold nameLe; infer_instance

/-- `String.dump`: a printable string is emitted as
`tabchar * depth + value` (plus newline unless suppressed); an
unprintable one as the placeholder `[<declared length> UTF-8 Bytes]`.
The colour parameters of the formatter contribute no characters with
the plain `TextFormatter`, which is the output model used here. -/
def strDump (tab : String) (s : BStr) (depth : Nat) (newline : Bool) : String :=
  if s.isprintable then
    pyRepeat tab depth ++ s.value ++ (if newline then "\n" else "")
  else
    pyRepeat tab depth ++ "[" ++ toString s.length ++ " UTF-8 Bytes]"
      ++ (if newline then "\n" else "")

mutual

/-- `dump` of a decoded value, as the text written to a plain
(colourless) `TextFormatter`.  `Integer.dump` emits
`tabchar * depth + str(value)` and a newline; `String.dump` is
`strDump`; `List.dump` renders a singleton list as its sole element at
the same depth and otherwise each element under a zero-based index
line, at `depth + 1`; `Dictionary.dump` sorts the keys with
`String.__cmp__` and emits each key (at `depth`) followed by its value
(at `depth + 1`).  The value of each entry is rendered before sorting
(`dumpDictRender`), which agrees with the original
sort-keys-then-look-up order because sorting compares keys only and is
stable. -/
def dumpValue (tab : String) : Value → Nat → String
  | .int n, depth => pyRepeat tab depth ++ toString n ++ "\n"
  | .str s, depth => strDump tab s depth true
  | .list [x], depth => dumpValue tab x depth
  | .list l, depth => dumpListItems tab l 0 depth
  | .dict d, depth =>
    (List.insertionSort keyLe (dumpDictRender tab d depth)).foldl
      (fun acc p => acc ++ strDump tab p.1 depth true ++ p.2) ""

/-- The `for index in range(len(self.value))` loop of `List.dump`:
each element is preceded by its index line at `depth` and rendered at
`depth + 1`. -/
def dumpListItems (tab : String) : List Value → Nat → Nat → String
  | [], _, _ => ""
  | x :: rest, idx, depth =>
    pyRepeat tab depth ++ toString idx ++ "\n" ++ dumpValue tab x (depth + 1)
      ++ dumpListItems tab rest (idx + 1) depth

/-- The dictionary entries with each value replaced by its rendering
at `depth + 1`, in the dictionary's own entry order (sorted afterwards
by `dumpValue`). -/
def dumpDictRender (tab : String) : List (BStr × Value) → Nat → List (BStr × String)
  | [], _ => []
  | (k, v) :: rest, depth =>
    (k, dumpValue tab v (depth + 1)) :: dumpDictRender tab rest depth

end

/-- The names of the dictionary keys in the order `Dictionary.dump`
emits them: the entries as sorted by `keys.sort()`, projected to the
key strings. -/
def dumpKeyNames (tab : String) (d : List (BStr × Value)) (depth : Nat) :
    List String :=
  (List.insertionSort keyLe (dumpDictRender tab d depth)).map
    (fun p => p.1.value)

/-- The unit-selection loop of `Integer.dump_as_size`:
`while size > 1024 and len(sizes) > 1: size /= 1024; sizes = sizes[1:]`.
The running value is exact (a rational); Python's float division by
1024 is likewise exact for the sizes that occur. -/
def sizeLoop : ℚ → List String → ℚ × List String
  | size, s₁ :: s₂ :: rest =>
    if 1024 < size then sizeLoop (size / 1024) (s₂ :: rest)
    else (size, s₁ :: s₂ :: rest)
  | size, sizes => (size, sizes)

/-- `Integer.dump_as_size`, reduced to its observable content: the
magnitude left by the division loop and the unit chosen from
`['B', 'KB', 'MB', 'GB']`.  The printed line is
`'%.1f%s' % (size + 0.05, sizes[0])` — one fractional digit of
`size + 0.05` followed by the unit; the float-to-decimal digits are
not modelled, the exact magnitude and the unit are. -/
def Integer.dump_as_size (value : Int) : ℚ × String :=
  let p := sizeLoop (value : ℚ) ["B", "KB", "MB", "GB"]
  (p.1, p.2.headD "")

/-- `TAB_CHAR`. -/
def TAB_CHAR : String := "    "

/-- One line of program output: stdout text or stderr text. -/
inductive Ev where
  | out (s : String)
  | err (s : String)
deriving DecidableEq, Repr

/-- The body of `main`'s per-file loop in `--dump` mode, up to the
point where an exception leaves it: load the torrent (parse plus the
root-dictionary check), print the file name, the full dump (depth 1)
and a blank line.  Exceptions abort the body before anything is
printed, because `load_torrent` runs first. -/
def runFile (asciionly : Bool) (fuel : Nat) (name content : String) :
    Except PErr (List Ev) :=
  match Torrent.init asciionly fuel content with
  | .error e => .error e
  | .ok v => .ok [.out (name ++ "\n"), .out (dumpValue TAB_CHAR v 1), .out "\n"]

/-- The `for filename in filenames` loop of `main`: each file is
processed by `runFile`; a `Torrent.UnknownTypeChar` exception is
caught by the `except` clause, reported to stderr, and the loop
continues; every other exception propagates out of the loop and
aborts the batch. -/
def mainLoop (asciionly : Bool) (fuel : Nat) :
    List (String × String) → Except PErr (List Ev)
  | [] => .ok []
  | (name, content) :: rest =>
    match runFile asciionly fuel name content with
    | .ok evs => (mainLoop asciionly fuel rest).map (fun r => evs ++ r)
    | .error (.unknownTypeChar _) =>
      (mainLoop asciionly fuel rest).map
        (fun r => .err ("Could not parse " ++ name ++ " as a valid torrent file.\n") :: r)
    | .error e => .error e

theorem lexLe_total : ∀ a b : List Char, lexLe a b = true ∨ lexLe b a = true
  | [], _ => by left; rfl
  | _ :: _, [] => by right; rfl
  | a :: as, b :: bs => by
    simp only [lexLe]
    rcases Nat.lt_trichotomy a.toNat b.toNat with h | h | h
    · left; simp [h]
    · have h1 : ¬ a.toNat < b.toNat := by omega
      have h2 : ¬ b.toNat < a.toNat := by omega
      rcases lexLe_total as bs with ih | ih
      · left; simp [h1, h2, ih]
      · right; simp [h1, h2, ih]
    · right; simp [h]

theorem lexLe_trans : ∀ {a b c : List Char},
    lexLe a b = true → lexLe b c = true → lexLe a c = true
  | [], _, _, _, _ => rfl
  | _ :: _, _ :: _, [], _, hbc => by simp [lexLe] at hbc
  | _ :: _, [], _ :: _, hab, _ => by simp [lexLe] at hab
  | a :: as, b :: bs, c :: cs, hab, hbc => by
    simp only [lexLe] at hab hbc ⊢
    split_ifs at hab hbc ⊢ <;>
      first
        | rfl
        | omega
        | simp at hab
        | simp at hbc
        | exact lexLe_trans hab hbc

theorem lexLe_antisymm : ∀ {a b : List Char},
    lexLe a b = true → lexLe b a = true → a = b
  | [], [], _, _ => rfl
  | [], _ :: _, _, hba => by simp [lexLe] at hba
  | _ :: _, [], hab, _ => by simp [lexLe] at hab
  | a :: as, b :: bs, hab, hba => by
    simp only [lexLe] at hab hba
    split_ifs at hab hba with h1 h2 <;>
      first
        | (exfalso; omega)
        | simp at hab
        | simp at hba
        | (have hn : a.toNat = b.toNat := by omega
           have hc : a = b := Char.ext (UInt32.toNat.inj hn)
           have ht : as = bs := lexLe_antisymm hab hba
           rw [hc, ht])

theorem lexLe_refl (a : List Char) : lexLe a a = true := by
  rcases lexLe_total a a with h | h <;> exact h

/-- C1: the size formatter's loop condition is strict (`size > 1024`),
so at the power-of-1024 boundaries the code disagrees with the claim
(and with the repository's own `test_size_success`, which expects
`1048576 -> '1.0MB'`): 1023 stays in bytes as claimed, but 1024 also
stays in bytes (magnitude 1024, unit `B`, a `1024.0B` line) instead of
becoming `1.0KB`, and 1048576 is divided only once (magnitude 1024,
unit `KB`, a `1024.0KB` line) instead of becoming `1.0MB`. -/
theorem dump_as_size_boundaries :
    Integer.dump_as_size 1023 = (1023, "B") ∧
    Integer.dump_as_size 1024 = (1024, "B") ∧
    Integer.dump_as_size 1048576 = (1024, "KB") := by
  refine ⟨?_, ?_, ?_⟩ <;> norm_num [Integer.dump_as_size, sizeLoop]

/-- C2: in unicode mode `is_printable` inspects only the start of the
string (`re.match`), so the string `"a\x00"`, which contains the
control character `0x00` at position 1, is nevertheless reported
printable — contradicting the claim (and the code's own comment) that
a control character anywhere makes the string unprintable. -/
theorem is_printable_checks_start_only :
    String.is_printable false "a\x00" = true ∧
    "a\x00".data.any ctrlChar = true := by
  exact ⟨by decide, by decide⟩

/-- C8: `get` called with a negative length (reachable through a
negative declared string length such as the dictionary key `-9:`)
breaks the cursor invariant: from the valid state `("" , 0)`,
`get(-1)` succeeds and leaves `position = -1 < 0`. -/
theorem sb_invariant_negative_length :
    SBInv ⟨"", 0⟩ ∧
    (StringBuffer.get ⟨"", 0⟩ (-1)).1 = .ok "" ∧
    ¬ SBInv (StringBuffer.get ⟨"", 0⟩ (-1)).2 := by
  refine ⟨by decide, by rfl, by decide⟩

theorem getUptoAux_invariant (c : Char) :
    ∀ (fuel : Nat) (sb : StringBuffer) (acc : String), SBInv sb →
      SBInv (StringBuffer.getUptoAux c fuel sb acc).2
  | 0, sb, acc, h => h
  | fuel + 1, sb, acc, h => by
    simp only [StringBuffer.getUptoAux]
    by_cases heof : sb.is_eof
    · simp [heof, h]
    · have hlt : sb.index < (sb.string.length : Int) := by
        simp [StringBuffer.is_eof] at heof; omega
      have hget : sb.get 1 =
          (.ok (pySlice sb.string sb.index (sb.index + 1)),
           { sb with index := sb.index + 1 }) := by
        simp [StringBuffer.get]; omega
      have hinv' : SBInv { sb with index := sb.index + 1 } := by
        unfold SBInv at h ⊢; simp at h ⊢; omega
      simp only [heof, if_false, Bool.false_eq_true, hget]
      by_cases hc : pySlice sb.string sb.index (sb.index + 1) = String.singleton c
      · simp [hc, hinv']
      · simp [hc]
        exact getUptoAux_invariant c fuel _ _ hinv'

/-- C8 (amended): every cursor operation with a non-negative length
argument preserves `0 <= position <= len(buffer)`: `peek` and
`is_eof` do not move the cursor at all, and `get n` for `n >= 0` and
`get_upto` preserve the invariant whether they succeed or fail; only
`get` with a negative length can violate it
(`sb_invariant_negative_length`). -/
theorem sb_ops_preserve_invariant (sb : StringBuffer) (h : SBInv sb) :
    (∀ n : Int, 0 ≤ n → SBInv (sb.get n).2) ∧
    (∀ c : Char, SBInv (sb.get_upto c).2) := by
  constructor
  · intro n hn
    unfold StringBuffer.get
    by_cases hlt : (sb.string.length : Int) < sb.index + n
    · simp [hlt]; exact h
    · simp [hlt]
      unfold SBInv at h ⊢
      simp at h ⊢
      omega
  · intro c
    exact getUptoAux_invariant c _ sb "" h

theorem sb_ops_preserve_invariant_witness :
    SBInv ⟨"ab", 0⟩ ∧
    SBInv ((⟨"ab", 0⟩ : StringBuffer).get 1).2 ∧
    SBInv ((⟨"ab", 0⟩ : StringBuffer).get_upto 'b').2 :=
  ⟨by decide,
   (sb_ops_preserve_invariant ⟨"ab", 0⟩ (by decide)).1 1 (by decide),
   (sb_ops_preserve_invariant ⟨"ab", 0⟩ (by decide)).2 'b'⟩

/-- C9: when the first character of the buffer is none of `d`, `l`,
`i` or a decimal digit, `Torrent.parse` raises `UnknownTypeChar`
identifying that character. -/
theorem parse_unknown_type_char (ascii : Bool) (fuel : Nat)
    (sb : StringBuffer) (c : Char) (hpeek : sb.peek = .ok c)
    (hd : c ≠ 'd') (hl : c ≠ 'l') (hi : c ≠ 'i')
    (hdig : ¬ ('0' ≤ c ∧ c ≤ '9')) :
    Torrent.parse ascii (fuel + 1) sb = .error (.unknownTypeChar c) := by
  simp [Torrent.parse, hpeek, hd, hl, hi, hdig]

theorem parse_unknown_type_char_witness :
    Torrent.parse false 100 ⟨"x", 0⟩ = .error (.unknownTypeChar 'x') :=
  parse_unknown_type_char false 99 ⟨"x", 0⟩ 'x' (by rfl)
    (by decide) (by decide) (by decide) (by decide)

/-- C10: dictionary decoding never rejects duplicate keys, and the
assignment `self.value[key] = value` makes the last occurrence win:
inserting a binding for `k` makes `k` look up to exactly that value no
matter what was inserted before, and concretely
`d1:ai1e1:ai2ee` (the key `a` bound twice) decodes successfully to a
dictionary mapping `a` to the second value `2`. -/
theorem dict_duplicate_last_wins :
    (∀ (d : List (BStr × Value)) (k : BStr) (v : Value),
        dictLookup (dictInsert d k v) k.value = some v) ∧
    Torrent.parse false 100 ⟨"d1:ai1e1:ai2ee", 0⟩ =
      .ok (.dict [(⟨1, "a", true⟩, .int 2)], ⟨"d1:ai1e1:ai2ee", 14⟩) := by
  constructor
  · intro d k v
    induction d with
    | nil => simp [dictInsert, dictLookup]
    | cons p rest ih =>
      obtain ⟨k', v'⟩ := p
      by_cases h : k'.value = k.value
      · simp [dictInsert, dictLookup, h]
      · simp [dictInsert, dictLookup, h, ih]
  · rfl

/-- C4: when parsing succeeds but the root value is not a dictionary,
`Torrent.__init__` raises the content-model error `UnexpectedType`
after the decoder has returned — it neither crashes nor reports one of
the decoder's parse errors. -/
theorem torrent_root_not_dict (ascii : Bool) (fuel : Nat) (s : String)
    (v : Value) (sb' : StringBuffer)
    (hparse : Torrent.parse ascii fuel ⟨s, 0⟩ = .ok (v, sb'))
    (hnd : ∀ d, v ≠ .dict d) :
    Torrent.init ascii fuel s = .error .unexpectedType := by
  unfold Torrent.init
  rw [hparse]
  cases v with
  | dict d => exact absurd rfl (hnd d)
  | int n => rfl
  | str s => rfl
  | list l => rfl

theorem torrent_root_not_dict_witness :
    Torrent.parse false 100 ⟨"4:fake", 0⟩ =
      .ok (.str ⟨4, "fake", true⟩, ⟨"4:fake", 6⟩) ∧
    Torrent.init false 100 "4:fake" = .error .unexpectedType :=
  ⟨by rfl,
   torrent_root_not_dict false 100 "4:fake" (.str ⟨4, "fake", true⟩)
     ⟨"4:fake", 6⟩ (by rfl) (fun _ h => Value.noConfusion h)⟩

/-- C5: `get(n)` with fewer than `n` characters remaining fails with
`BufferOverrun` carrying the shortfall `n - (len - index)` and leaves
the cursor exactly where it was; consequently decoding
`d20:announce` (declared length 20, only 8 characters after the
colon) fails with `BufferOverrun(12)` instead of returning a
truncated string. -/
theorem take_shortfall_atomic :
    (∀ (sb : StringBuffer) (n : Int), SBInv sb →
        (sb.string.length : Int) - sb.index < n →
        sb.get n =
          (.error (.bufferOverrun (n - ((sb.string.length : Int) - sb.index))),
           sb)) ∧
    Torrent.parse false 100 ⟨"d20:announce", 0⟩ = .error (.bufferOverrun 12) := by
  constructor
  · intro sb n hinv hlt
    have h : (sb.string.length : Int) < sb.index + n := by omega
    have harg : sb.index + n - (sb.string.length : Int) =
        n - ((sb.string.length : Int) - sb.index) := by ring
    simp [StringBuffer.get, h, harg]
  · rfl

theorem take_shortfall_atomic_witness :
    (⟨"abc", 1⟩ : StringBuffer).get 5 =
      (.error (.bufferOverrun 3), ⟨"abc", 1⟩) := by
  have h := take_shortfall_atomic.1 ⟨"abc", 1⟩ 5 (by decide) (by decide)
  simpa using h

/-- C3 (counterexample): a `CharacterExpected` decoder error
(`DelimiterNotFound`) raised by the first file of a batch is not
caught by the per-file `except Torrent.UnknownTypeChar` clause, so it
aborts the whole batch: the second, perfectly valid file `de` is never
processed. -/
theorem mainLoop_decoder_error_aborts :
    mainLoop false 100 [("a", "i"), ("b", "de")] =
      .error (.characterExpected 'e') := by rfl

/-- C3 (amended): the per-file boundary of `main` catches exactly
`UnknownTypeChar`: a file failing with it is reported to stderr as
`Could not parse <file> as a valid torrent file.` and the loop
continues with the remaining files, while a file failing with any
other decoder error (`BufferOverrun`, `CharacterExpected`,
`ValueError`) aborts the whole batch with that error. -/
theorem mainLoop_catches_only_unknown_type (ascii : Bool) (fuel : Nat)
    (name content : String) (rest : List (String × String)) :
    (∀ c, Torrent.init ascii fuel content = .error (.unknownTypeChar c) →
        mainLoop ascii fuel ((name, content) :: rest) =
          (mainLoop ascii fuel rest).map
            (fun r =>
              .err ("Could not parse " ++ name
                ++ " as a valid torrent file.\n") :: r)) ∧
    (∀ e, Torrent.init ascii fuel content = .error e →
        (∀ c, e ≠ .unknownTypeChar c) →
        mainLoop ascii fuel ((name, content) :: rest) = .error e) := by
  constructor
  · intro c h
    simp [mainLoop, runFile, h]
  · intro e h hne
    cases e with
    | unknownTypeChar c => exact absurd rfl (hne c)
    | bufferOverrun n => simp [mainLoop, runFile, h]
    | characterExpected c => simp [mainLoop, runFile, h]
    | valueError => simp [mainLoop, runFile, h]
    | unexpectedType => simp [mainLoop, runFile, h]
    | fuel => simp [mainLoop, runFile, h]

theorem mainLoop_catches_only_unknown_type_witness :
    mainLoop false 100 [("a", "x"), ("b", "de")] =
      .ok [.err "Could not parse a as a valid torrent file.\n",
           .out "b\n", .out "", .out "\n"] := by
  have h := (mainLoop_catches_only_unknown_type false 100 "a" "x"
    [("b", "de")]).1 'x' (by rfl)
  rw [h]; rfl

theorem dumpListItems_enumFrom (tab : String) :
    ∀ (l : List Value) (i depth : Nat),
      dumpListItems tab l i depth =
        ((l.enumFrom i).map (fun p =>
          pyRepeat tab depth ++ toString p.1 ++ "\n"
            ++ dumpValue tab p.2 (depth + 1))).foldr (· ++ ·) ""
  | [], _, _ => rfl
  | x :: rest, i, depth => by
    simp only [dumpListItems, List.enumFrom, List.map, List.foldr]
    rw [dumpListItems_enumFrom tab rest (i + 1) depth]

/-- C7: `List.dump` renders a singleton list exactly as its sole
element at the same depth, and a list of two or more elements as the
concatenation, in order, of a zero-based index line at the current
depth followed by the element rendered at `depth + 1`. -/
theorem list_dump_flatten :
    (∀ (tab : String) (x : Value) (depth : Nat),
        dumpValue tab (.list [x]) depth = dumpValue tab x depth) ∧
    (∀ (tab : String) (l : List Value) (depth : Nat), 2 ≤ l.length →
        dumpValue tab (.list l) depth =
          ((l.enumFrom 0).map (fun p =>
            pyRepeat tab depth ++ toString p.1 ++ "\n"
              ++ dumpValue tab p.2 (depth + 1))).foldr (· ++ ·) "") := by
  constructor
  · intro tab x depth; rfl
  · intro tab l depth hl
    match l with
    | x :: y :: rest =>
      rw [show dumpValue tab (.list (x :: y :: rest)) depth =
            dumpListItems tab (x :: y :: rest) 0 depth from rfl]
      exact dumpListItems_enumFrom tab _ 0 depth

theorem list_dump_flatten_witness :
    2 ≤ ([Value.int 7, Value.int 8] : List Value).length ∧
    dumpValue "t" (.list [.int 7, .int 8]) 0 =
      ((([Value.int 7, Value.int 8] : List Value).enumFrom 0).map (fun p =>
        pyRepeat "t" 0 ++ toString p.1 ++ "\n"
          ++ dumpValue "t" p.2 (0 + 1))).foldr (· ++ ·) "" :=
  ⟨by decide, list_dump_flatten.2 "t" [.int 7, .int 8] 0 (by decide)⟩

theorem dumpDictRender_keys (tab : String) :
    ∀ (d : List (BStr × Value)) (depth : Nat),
      (dumpDictRender tab d depth).map (fun p => p.1.value) =
        d.map (fun p => p.1.value)
  | [], _ => rfl
  | (k, v) :: rest, depth => by
    simp only [dumpDictRender, List.map]
    rw [dumpDictRender_keys tab rest depth]

/-- C6: `Dictionary.dump` emits its keys in sorted byte-lexicographic
order regardless of the order in which decoding inserted them: the
emitted key sequence is sorted, is a permutation of the dictionary's
keys, and depends only on the multiset of keys (two dictionaries whose
key lists are permutations of one another emit the same key
sequence); concretely, decoding `d3:bba1:x3:aaa1:ye` (where `bba`
arrives first) and dumping the result prints `aaa` and its value
before `bba` and its value. -/
theorem dict_dump_sorted_keys :
    (∀ (tab : String) (d : List (BStr × Value)) (depth : Nat),
        List.Sorted nameLe (dumpKeyNames tab d depth)) ∧
    (∀ (tab : String) (d : List (BStr × Value)) (depth : Nat),
        (dumpKeyNames tab d depth).Perm (d.map (fun p => p.1.value))) ∧
    (∀ (tab : String) (d₁ d₂ : List (BStr × Value)) (depth : Nat),
        (d₁.map (fun p => p.1.value)).Perm (d₂.map (fun p => p.1.value)) →
        dumpKeyNames tab d₁ depth = dumpKeyNames tab d₂ depth) ∧
    (Torrent.parse false 100 ⟨"d3:bba1:x3:aaa1:ye", 0⟩ =
        .ok (.dict [(⟨3, "bba", true⟩, .str ⟨1, "x", true⟩),
                    (⟨3, "aaa", true⟩, .str ⟨1, "y", true⟩)],
             ⟨"d3:bba1:x3:aaa1:ye", 18⟩) ∧
      dumpValue "" (.dict [(⟨3, "bba", true⟩, .str ⟨1, "x", true⟩),
                           (⟨3, "aaa", true⟩, .str ⟨1, "y", true⟩)]) 0 =
        "aaa\ny\nbba\nx\n") := by
  have hsorted : ∀ (tab : String) (d : List (BStr × Value)) (depth : Nat),
      List.Sorted nameLe (dumpKeyNames tab d depth) := by
    intro tab d depth
    letI : IsTotal (BStr × String) keyLe := ⟨fun a b => lexLe_total _ _⟩
    letI : IsTrans (BStr × String) keyLe :=
      ⟨fun _ _ _ hab hbc => lexLe_trans hab hbc⟩
    have h := List.sorted_insertionSort keyLe (dumpDictRender tab d depth)
    show List.Pairwise nameLe
      ((List.insertionSort keyLe (dumpDictRender tab d depth)).map
        (fun p => p.1.value))
    have hmono : ∀ a b : BStr × String, keyLe a b →
        nameLe a.1.value b.1.value := fun _ _ hr => hr
    exact h.map (fun p => p.1.value) hmono
  have hperm : ∀ (tab : String) (d : List (BStr × Value)) (depth : Nat),
      (dumpKeyNames tab d depth).Perm (d.map (fun p => p.1.value)) := by
    intro tab d depth
    have h₁ := (List.perm_insertionSort keyLe
      (dumpDictRender tab d depth)).map (fun p => p.1.value)
    rw [dumpDictRender_keys tab d depth] at h₁
    exact h₁
  refine ⟨hsorted, hperm, ?_, by rfl, by rfl⟩
  intro tab d₁ d₂ depth hp
  letI : IsAntisymm String nameLe :=
    ⟨fun s t hst hts => by
      cases s; cases t
      exact congrArg String.mk (lexLe_antisymm hst hts)⟩
  refine List.eq_of_perm_of_sorted ?_ (hsorted tab d₁ depth)
    (hsorted tab d₂ depth)
  exact ((hperm tab d₁ depth).trans hp).trans (hperm tab d₂ depth).symm

theorem dict_dump_sorted_keys_witness :
    (([(⟨3, "bba", true⟩, Value.int 1), (⟨3, "aaa", true⟩, Value.int 2)] :
        List (BStr × Value)).map (fun p => p.1.value)).Perm
      (([(⟨3, "aaa", true⟩, Value.int 2), (⟨3, "bba", true⟩, Value.int 1)] :
        List (BStr × Value)).map (fun p => p.1.value)) ∧
    dumpKeyNames " " [(⟨3, "bba", true⟩, .int 1), (⟨3, "aaa", true⟩, .int 2)] 0 =
      dumpKeyNames " " [(⟨3, "aaa", true⟩, .int 2), (⟨3, "bba", true⟩, .int 1)] 0 :=
  ⟨by decide,
   dict_dump_sorted_keys.2.2.1 " "
     [(⟨3, "bba", true⟩, .int 1), (⟨3, "aaa", true⟩, .int 2)]
     [(⟨3, "aaa", true⟩, .int 2), (⟨3, "bba", true⟩, .int 1)] 0 (by decide)⟩
